import Mathlib

/-!
Shallow embedding of the prediction lifecycle and accuracy-scoring core of a
stock-index prediction tracker (Next.js + Supabase).  Sources embedded:

* `src/lib/marketHours.ts` (4-asset iteration): `isMarketClosed`,
  `areAllPredictedMarketsClosed`, `canAutoConfirm`.
* `src/lib/stats.ts`: `calculateDeviation`, `isDirectionCorrect`,
  `calculateMean`, `calculateStandardDeviation`, `calculateStockStats`.
* `src/lib/supabase-storage.ts` (4-asset iteration): `addPrediction`,
  `updatePredictionResult`, `editPrediction`, modelled as pure transformations
  on the fetched database row (the Supabase round trip is modelled as: fetch
  the current row, compute the column updates, apply them to the row).
* the ranking API route: `autoConfirmAllPending` and the leaderboard
  aggregation of `GET`, modelled on the query results.

Conventions: JS numbers are embedded as `ℚ`; SQL `date` values as `ℤ` day
ordinals; timestamps as `ℤ`; a nullable column as `Option`.  JS `Date`-based
"today" and the current UTC hour are passed as explicit parameters
(`today : ℤ`, `currentHourUTC : ℕ`).
-/

/-- The fixed instrument identifiers (`StockSymbol` in `src/types/index.ts`). -/
inductive StockSymbol : Type
  | nikkei
  | sp500
  | gold
  | bitcoin
deriving DecidableEq, Repr

/-- `ASSET_KEYS` / `PREDICTABLE_SYMBOLS`: the fixed iteration order used by the
storage and ranking code. -/
def ASSET_KEYS : List StockSymbol := [StockSymbol.nikkei, StockSymbol.sp500, StockSymbol.gold, StockSymbol.bitcoin]

/-! ### Market-hours gate (`src/lib/marketHours.ts`, 4-asset iteration) -/

/-- `MARKET_CLOSE_HOURS_UTC`: per-instrument daily close hour in UTC. -/
def MARKET_CLOSE_HOURS_UTC : StockSymbol → ℕ
  | StockSymbol.nikkei => 6
  | StockSymbol.sp500 => 21
  | StockSymbol.gold => 22
  | StockSymbol.bitcoin => 21

/-- `isMarketClosed(symbol, predictionDate)`.  The source compares the
prediction date and "today" at day granularity and, on the same day, compares
the current UTC hour with the close hour; `today` and `currentHourUTC` are the
wall-clock inputs made explicit. -/
def isMarketClosed (today : ℤ) (currentHourUTC : ℕ) (symbol : StockSymbol)
    (predictionDate : ℤ) : Bool :=
  if predictionDate < today then true
  else if today < predictionDate then false
  else decide (MARKET_CLOSE_HOURS_UTC symbol ≤ currentHourUTC)

/-- `areAllPredictedMarketsClosed(predictionDate, predictedAssets)`. -/
def areAllPredictedMarketsClosed (today : ℤ) (currentHourUTC : ℕ)
    (predictionDate : ℤ) (predictedAssets : List StockSymbol) : Bool :=
  predictedAssets.all fun asset =>
    isMarketClosed today currentHourUTC asset predictionDate

/-- `canAutoConfirm(predictionDate, confirmedAt, predictedAssets)`. -/
def canAutoConfirm (today : ℤ) (currentHourUTC : ℕ) (predictionDate : ℤ)
    (confirmedAt : Option ℤ) (predictedAssets : List StockSymbol) : Bool :=
  if confirmedAt ≠ none then false
  else if predictedAssets.length = 0 then false
  else areAllPredictedMarketsClosed today currentHourUTC predictionDate
    predictedAssets

/-! ### Deviation and statistics calculator (`src/lib/stats.ts`) -/

/-- `calculateDeviation(predicted, actual)`. -/
def calculateDeviation (predicted actual : ℚ) : ℚ :=
  |predicted - actual|

/-- `isDirectionCorrect(predicted, actual)`: sequence of early returns from
the source, in order. -/
def isDirectionCorrect (predicted actual : ℚ) : Bool :=
  if predicted = 0 ∧ actual = 0 then true
  else if 0 < predicted ∧ 0 < actual then true
  else if predicted < 0 ∧ actual < 0 then true
  else if predicted = 0 ∧ |actual| ≤ 1/10 then true
  else false

/-- `calculateMean(values)`: 0 on empty input, else the arithmetic mean. -/
def calculateMean (values : List ℚ) : ℚ :=
  if values.length = 0 then 0
  else values.sum / values.length

/-- `calculateStandardDeviation(values)` up to the final `Math.sqrt`: the
source returns the square root of the population variance; an exact square
root does not exist on `ℚ`, so the model records the radicand (the population
variance, divide by N).  Every claim about statistics concerns only counts
and the zero-confirmed branch, where both source and model return the
literal 0. -/
def calculateStandardDeviationSq (values : List ℚ) : ℚ :=
  if values.length = 0 then 0
  else calculateMean (values.map fun v => (v - calculateMean values) ^ 2)

/-- `StockPrediction` (`src/types/index.ts`): per-instrument prediction data
on a client-side record. -/
structure StockPrediction where
  previousClose : ℚ
  predictedChange : ℚ
  actualChange : Option ℚ
  deviation : Option ℚ
deriving DecidableEq, Repr

/-- `PredictionRecord` (`src/types/index.ts`, 4-asset iteration): each asset
slot is `null` when that instrument was not predicted. -/
structure PredictionRecord where
  id : ℕ
  date : ℤ
  nikkei : Option StockPrediction
  sp500 : Option StockPrediction
  gold : Option StockPrediction
  bitcoin : Option StockPrediction
  reviewComment : Option String
  createdAt : ℤ
  confirmedAt : Option ℤ
deriving DecidableEq, Repr

/-- The dynamic per-instrument access `record[symbol]` used by `stats.ts`. -/
def PredictionRecord.get (r : PredictionRecord) : StockSymbol → Option StockPrediction
  | StockSymbol.nikkei => r.nikkei
  | StockSymbol.sp500 => r.sp500
  | StockSymbol.gold => r.gold
  | StockSymbol.bitcoin => r.bitcoin

/-- `StockStats` (`src/types/index.ts`); `standardDeviationSq` records the
radicand of the source's `standardDeviation` (see
`calculateStandardDeviationSq`). -/
structure StockStats where
  averageDeviation : ℚ
  minDeviation : ℚ
  minDeviationDate : Option ℤ
  maxDeviation : ℚ
  maxDeviationDate : Option ℤ
  standardDeviationSq : ℚ
  directionAccuracy : ℚ
  totalPredictions : ℕ
  confirmedPredictions : ℕ
deriving DecidableEq, Repr

/-- One element of the `deviations` array built inside `calculateStockStats`.
`deviation` holds `r[symbol].deviation!` after the JS `ToNumber` coercion that
every later use applies (`null` coerces to 0 in the additions and `<`/`>`
comparisons it flows into); `actual` is non-null by the confirmed filter. -/
structure DevEntry where
  date : ℤ
  deviation : ℚ
  predicted : ℚ
  actual : ℚ
deriving DecidableEq, Repr

/-- The filter `records.filter(r => r[symbol].actualChange !== null)` at the
top of `calculateStockStats`: accessing `actualChange` on a record whose
`r[symbol]` is `null` raises a `TypeError`, modelled as `none`. -/
def confirmedRecordsFilter : List PredictionRecord → StockSymbol →
    Option (List PredictionRecord)
  | [], _ => some []
  | r :: rs, symbol =>
    match r.get symbol with
    | none => none
    | some sp =>
      match confirmedRecordsFilter rs symbol with
      | none => none
      | some rest =>
        some (if sp.actualChange ≠ none then r :: rest else rest)

/-- The min/max scan of `calculateStockStats`: starts at `Infinity` /
`-Infinity` (modelled as `none`) and takes a value on strict improvement, so
the first occurrence wins on ties. -/
def minMaxScan (deviations : List DevEntry) :
    Option (ℚ × ℤ) × Option (ℚ × ℤ) :=
  deviations.foldl
    (fun acc d =>
      let mn := match acc.1 with
        | none => some (d.deviation, d.date)
        | some (m, dt) =>
          if d.deviation < m then some (d.deviation, d.date) else some (m, dt)
      let mx := match acc.2 with
        | none => some (d.deviation, d.date)
        | some (m, dt) =>
          if m < d.deviation then some (d.deviation, d.date) else some (m, dt)
      (mn, mx))
    (none, none)

/-- `calculateStockStats(records, symbol)`; `Except.error ()` models the
`TypeError` thrown when some record has `r[symbol] == null`. -/
def calculateStockStats (records : List PredictionRecord)
    (symbol : StockSymbol) : Except Unit StockStats :=
  match confirmedRecordsFilter records symbol with
  | none => Except.error ()
  | some confirmedRecords =>
    if confirmedRecords.length = 0 then
      Except.ok
        { averageDeviation := 0
          minDeviation := 0
          minDeviationDate := none
          maxDeviation := 0
          maxDeviationDate := none
          standardDeviationSq := 0
          directionAccuracy := 0
          totalPredictions := records.length
          confirmedPredictions := 0 }
    else
      let deviations : List DevEntry := confirmedRecords.filterMap fun r =>
        (r.get symbol).map fun sp =>
          { date := r.date
            deviation := sp.deviation.getD 0
            predicted := sp.predictedChange
            actual := sp.actualChange.getD 0 }
      let deviationValues := deviations.map fun d => d.deviation
      let mm := minMaxScan deviations
      let correctDirections :=
        (deviations.filter fun d => isDirectionCorrect d.predicted d.actual).length
      Except.ok
        { averageDeviation := calculateMean deviationValues
          minDeviation := (mm.1.map Prod.fst).getD 0
          minDeviationDate := mm.1.map Prod.snd
          maxDeviation := (mm.2.map Prod.fst).getD 0
          maxDeviationDate := mm.2.map Prod.snd
          standardDeviationSq := calculateStandardDeviationSq deviationValues
          directionAccuracy := (correctDirections : ℚ) / confirmedRecords.length * 100
          totalPredictions := records.length
          confirmedPredictions := confirmedRecords.length }

/-! ### Storage layer (`src/lib/supabase-storage.ts`, 4-asset iteration)

A `predictions` table row; the four per-instrument column groups
(`{key}_previous_close`, `{key}_predicted_change`, `{key}_actual_change`,
`{key}_deviation`, all nullable numerics) are gathered into `AssetCols`.
The row `id` is irrelevant to every claim (operations are modelled directly
on the fetched row) and is omitted. -/

/-- The four nullable numeric columns a row holds for one instrument. -/
structure AssetCols where
  previousClose : Option ℚ
  predictedChange : Option ℚ
  actualChange : Option ℚ
  deviation : Option ℚ
deriving DecidableEq, Repr

/-- An all-null column group. -/
def AssetCols.empty : AssetCols :=
  { previousClose := none, predictedChange := none, actualChange := none,
    deviation := none }

/-- One row of the `predictions` table (schema in `supabase-schema.sql`). -/
structure PredictionRow where
  userId : ℕ
  date : ℤ
  nikkei : AssetCols
  sp500 : AssetCols
  gold : AssetCols
  bitcoin : AssetCols
  reviewComment : Option String
  createdAt : ℤ
  confirmedAt : Option ℤ
deriving DecidableEq, Repr

/-- Column-group access by instrument key (the source's dynamic
`row[`${key}_...`]` lookups). -/
def PredictionRow.asset (r : PredictionRow) : StockSymbol → AssetCols
  | StockSymbol.nikkei => r.nikkei
  | StockSymbol.sp500 => r.sp500
  | StockSymbol.gold => r.gold
  | StockSymbol.bitcoin => r.bitcoin

/-- Rewrite every column group through `f` (the per-key update loops). -/
def PredictionRow.mapAssets (r : PredictionRow)
    (f : StockSymbol → AssetCols → AssetCols) : PredictionRow :=
  { r with
    nikkei := f StockSymbol.nikkei r.nikkei
    sp500 := f StockSymbol.sp500 r.sp500
    gold := f StockSymbol.gold r.gold
    bitcoin := f StockSymbol.bitcoin r.bitcoin }

/-- The `allConfirmed` check of `updatePredictionResult`: every key is either
unpredicted or has an actual value in `results[key]?.actualChange ??
current[key_actual_change]`. -/
def updAllConfirmed (r : PredictionRow) (results : StockSymbol → Option ℚ) : Bool :=
  ASSET_KEYS.all fun k =>
    decide ((r.asset k).predictedChange = none) ||
      (match results k with
        | some a => some a
        | none => (r.asset k).actualChange).isSome

/-- `updatePredictionResult(userId, id, results)` applied to the fetched row
`r`; `results k = some a` models `results[key] = { actualChange: a }`.  For
each key present, the source writes the actual value and a deviation computed
from `Number(current[key_predicted_change])` (JS `Number(null) = 0`, hence
`getD 0`); `confirmed_at` is added to the update only when `allConfirmed`.
`updApply` is the body of the per-key loop. -/
def updApply (results : StockSymbol → Option ℚ) (k : StockSymbol)
    (c : AssetCols) : AssetCols :=
  match results k with
  | none => c
  | some a =>
    { c with
      actualChange := some a
      deviation := some (calculateDeviation (c.predictedChange.getD 0) a) }

def updatePredictionResult (r : PredictionRow)
    (results : StockSymbol → Option ℚ) (now : ℤ) : PredictionRow :=
  { r.mapAssets (updApply results) with
    confirmedAt := if updAllConfirmed r results then some now else r.confirmedAt }

/-- One instrument's entry in the `updates` argument of `editPrediction`:
an outer `none` models an absent (`undefined`) field, `some none` an explicit
`null` for `actualChange`. -/
structure AssetEdit where
  predictedChange : Option ℚ
  actualChange : Option (Option ℚ)
deriving DecidableEq, Repr

/-- An absent `updates[key]` entry. -/
def AssetEdit.empty : AssetEdit :=
  { predictedChange := none, actualChange := none }

/-- The `allConfirmed` check of `editPrediction`: for every key whose
**current** `predicted_change` is non-null, `updates[key]?.actualChange`
(when the field is present) or else the current actual must be non-null. -/
def editAllConfirmed (r : PredictionRow) (upd : StockSymbol → AssetEdit) : Bool :=
  ASSET_KEYS.all fun k =>
    decide ((r.asset k).predictedChange = none) ||
      (match (upd k).actualChange with
        | some av => av
        | none => (r.asset k).actualChange).isSome

/-- `editPrediction(userId, id, updates)` applied to the fetched row.  Per
key: a supplied `predictedChange` overwrites; a supplied `actualChange`
overwrites and sets the deviation, which the source computes from
`dbUpdates[key_predicted_change]` — defined only when the same call also
supplied `predictedChange` — and otherwise writes `null`.  `confirmed_at` is
always written: `now` when `allConfirmed`, else `null`.
`editApply` is the body of the per-key loop. -/
def editApply (upd : StockSymbol → AssetEdit) (k : StockSymbol)
    (c : AssetCols) : AssetCols :=
  match (upd k).actualChange with
  | some av =>
    { c with
      predictedChange :=
        match (upd k).predictedChange with
        | some v => some v
        | none => c.predictedChange
      actualChange := av
      deviation :=
        match av, (upd k).predictedChange with
        | some a, some v => some (calculateDeviation v a)
        | _, _ => none }
  | none =>
    match (upd k).predictedChange with
    | some v => { c with predictedChange := some v }
    | none => c

def editPrediction (r : PredictionRow) (upd : StockSymbol → AssetEdit)
    (now : ℤ) : PredictionRow :=
  { r.mapAssets (editApply upd) with
    confirmedAt := if editAllConfirmed r upd then some now else none }

/-- The row built by `addPrediction`'s insert: only the previous-close and
predicted-change columns of the supplied instruments are set; every other
column takes its schema default (`null`, `created_at := now`);
`newAssetCols` builds one instrument's column group from `input[k]`. -/
def newAssetCols : Option (ℚ × ℚ) → AssetCols
  | some (pc, ch) =>
    { previousClose := some pc, predictedChange := some ch,
      actualChange := none, deviation := none }
  | none => AssetCols.empty

def newPredictionRow (userId : ℕ) (today : ℤ)
    (input : StockSymbol → Option (ℚ × ℚ)) (now : ℤ) : PredictionRow :=
  { userId := userId
    date := today
    nikkei := newAssetCols (input StockSymbol.nikkei)
    sp500 := newAssetCols (input StockSymbol.sp500)
    gold := newAssetCols (input StockSymbol.gold)
    bitcoin := newAssetCols (input StockSymbol.bitcoin)
    reviewComment := none
    createdAt := now
    confirmedAt := none }

/-- `addPrediction(userId, input)` against a table state `db`, where
`input k = some (previousClose, predictedChange)` models `input[k]` being
supplied.  The `(user_id, date)` unique constraint makes the insert fail with
code 23505 when a same-user same-day row exists; the source then selects and
returns that existing row and the table is unchanged.  Otherwise the new row
is inserted and returned. -/
def addPrediction (db : List PredictionRow) (userId : ℕ) (today : ℤ)
    (input : StockSymbol → Option (ℚ × ℚ)) (now : ℤ) :
    Option PredictionRow × List PredictionRow :=
  if db.any fun row => row.userId = userId ∧ row.date = today then
    (db.find? fun row => decide (row.userId = userId ∧ row.date = today), db)
  else
    let nr := newPredictionRow userId today input now
    (some nr, db ++ [nr])

/-- The record-level confirmation invariant of the specification:
`confirmedAt` is non-null exactly when every instrument with a non-null
`predictedChange` also has a non-null `actualChange`. -/
@[reducible] def confirmedInvariant (r : PredictionRow) : Prop :=
  r.confirmedAt ≠ none ↔
    ∀ k ∈ ASSET_KEYS,
      (r.asset k).predictedChange = none ∨ (r.asset k).actualChange ≠ none

/-! ### Ranking API route (server side) -/

/-- The set of instruments a row predicted
(`ASSET_KEYS.filter(k => p[`${k}_predicted_change`] != null)`). -/
def predictedAssets (r : PredictionRow) : List StockSymbol :=
  ASSET_KEYS.filter fun k => (r.asset k).predictedChange ≠ none

/-- The update `autoConfirmAllPending` writes for one eligible row:
`confirmed_at` is set unconditionally, and for each predicted instrument
whose quote was obtained the actual change and deviation are written;
`quoteApply` is the body of the per-key loop. -/
def quoteApply (quotes : StockSymbol → Option ℚ) (k : StockSymbol)
    (c : AssetCols) : AssetCols :=
  match c.predictedChange, quotes k with
  | some p, some q =>
    { c with actualChange := some q, deviation := some (|p - q|) }
  | _, _ => c

def autoConfirmUpdate (quotes : StockSymbol → Option ℚ) (now : ℤ)
    (r : PredictionRow) : PredictionRow :=
  { r.mapAssets (quoteApply quotes) with confirmedAt := some now }

/-- `autoConfirmAllPending()` as a table transformation: the select keeps the
rows with `confirmed_at` null, the eligible ones (non-empty predicted set,
all predicted markets closed) receive `autoConfirmUpdate`, every other row is
untouched.  `quotes k` is the `fetchChangePercent` result for instrument `k`
(`none` when the quote source failed). -/
def autoConfirmAllPending (today : ℤ) (currentHourUTC : ℕ)
    (quotes : StockSymbol → Option ℚ) (now : ℤ)
    (db : List PredictionRow) : List PredictionRow :=
  db.map fun r =>
    if r.confirmedAt = none ∧ predictedAssets r ≠ [] ∧
        areAllPredictedMarketsClosed today currentHourUTC r.date
          (predictedAssets r) = true then
      autoConfirmUpdate quotes now r
    else r

/-- One row of the confirmed-predictions query in the ranking `GET` (per-user
id plus per-instrument deviation, predicted change and actual change). -/
structure RankRow where
  userId : ℕ
  deviationOf : StockSymbol → Option ℚ
  predictedOf : StockSymbol → Option ℚ
  actualOf : StockSymbol → Option ℚ

/-- The per-user accumulator of the ranking `GET`. -/
structure UserStats where
  deviations : List ℚ
  directionCorrect : ℕ
  directionTotal : ℕ
  totalPredictions : ℕ
deriving DecidableEq, Repr

/-- A fresh accumulator. -/
def UserStats.empty : UserStats :=
  { deviations := [], directionCorrect := 0, directionTotal := 0,
    totalPredictions := 0 }

/-- Folding one confirmed row into a user's accumulator: pool every non-null
deviation, count direction hits with the route's own sign test
`(predicted >= 0) === (actual >= 0)`, and bump the record count. -/
def UserStats.addRow (s : UserStats) (p : RankRow) : UserStats :=
  let s1 := ASSET_KEYS.foldl
    (fun acc k =>
      let acc1 := match p.deviationOf k with
        | some d => { acc with deviations := acc.deviations ++ [d] }
        | none => acc
      match p.predictedOf k, p.actualOf k with
      | some pr, some ac =>
        { acc1 with
          directionTotal := acc1.directionTotal + 1
          directionCorrect :=
            acc1.directionCorrect + if (0 ≤ pr) = (0 ≤ ac) then 1 else 0 }
      | _, _ => acc1)
    s
  { s1 with totalPredictions := s1.totalPredictions + 1 }

/-- Insert-or-update on the association list modelling the JS `Map` keyed by
user id: first insertion fixes the position, later rows update in place. -/
def statsMapAdd (m : List (ℕ × UserStats)) (p : RankRow) :
    List (ℕ × UserStats) :=
  match m with
  | [] => [(p.userId, UserStats.empty.addRow p)]
  | (k, s) :: rest =>
    if k = p.userId then (k, s.addRow p) :: rest
    else (k, s) :: statsMapAdd rest p

/-- `userStatsMap` built from the confirmed-predictions query result, in
insertion order. -/
def buildUserStats (preds : List RankRow) : List (ℕ × UserStats) :=
  preds.foldl statsMapAdd []

/-- JS `Math.round`: round half toward positive infinity. -/
def jsRound (q : ℚ) : ℤ := ⌊q + 1/2⌋

/-- One leaderboard entry (`RankingUser`); the display-only `userName` and
`latestPrediction` payloads are omitted, they play no part in ordering,
truncation or counting. -/
structure RankingUser where
  userId : ℕ
  averageDeviation : ℚ
  totalPredictions : ℕ
  confirmedPredictions : ℕ
  directionAccuracy : ℚ
deriving DecidableEq, Repr

/-- The ranked entries: users of `userStatsMap` with a non-empty deviation
pool, with the route's two-decimal / one-decimal roundings. -/
def rankedUsers (preds : List RankRow) : List RankingUser :=
  (buildUserStats preds).filterMap fun us =>
    if us.2.deviations.length = 0 then none
    else
      some
        { userId := us.1
          averageDeviation :=
            (jsRound (us.2.deviations.sum / us.2.deviations.length * 100) : ℚ) / 100
          totalPredictions := us.2.totalPredictions
          confirmedPredictions := us.2.totalPredictions
          directionAccuracy :=
            (jsRound ((if 0 < us.2.directionTotal then
              (us.2.directionCorrect : ℚ) / us.2.directionTotal * 100 else 0) * 10) : ℚ)
              / 10 }

/-- The deduplicated key list of `latestPredictionMap` (the today-prediction
query returns at most one row per user, keys keep first-seen order). -/
def latestKeys (latest : List ℕ) : List ℕ :=
  latest.foldl (fun acc u => if u ∈ acc then acc else acc ++ [u]) []

/-- The appended entries: users with a today prediction and no entry at all
in `userStatsMap`, carrying the `-1` unconfirmed sentinel. -/
def sentinelUsers (preds : List RankRow) (latest : List ℕ) : List RankingUser :=
  (latestKeys latest).filterMap fun uid =>
    if ((buildUserStats preds).find? fun us => us.1 = uid).isSome then none
    else
      some
        { userId := uid
          averageDeviation := -1
          totalPredictions := 0
          confirmedPredictions := 0
          directionAccuracy := -1 }

/-- The `rankings` array before sorting: ranked entries pushed first, then
the sentinel entries. -/
def buildRankings (preds : List RankRow) (latest : List ℕ) : List RankingUser :=
  rankedUsers preds ++ sentinelUsers preds latest

/-- The route's comparator, reduced to its sign: sentinel entries compare
equal to each other and after every ranked entry; ranked entries compare by
`averageDeviation`. -/
def rankCmp (a b : RankingUser) : ℤ :=
  if a.averageDeviation = -1 ∧ b.averageDeviation = -1 then 0
  else if a.averageDeviation = -1 then 1
  else if b.averageDeviation = -1 then -1
  else if a.averageDeviation < b.averageDeviation then -1
  else if b.averageDeviation < a.averageDeviation then 1
  else 0

/-- Stable insertion used to model `Array.prototype.sort` (which ECMAScript
requires to be stable): an element passes every earlier element comparing
less-or-equal, so equal elements keep their original order. -/
def insertRanked (x : RankingUser) : List RankingUser → List RankingUser
  | [] => [x]
  | y :: ys => if rankCmp y x ≤ 0 then y :: insertRanked x ys else x :: y :: ys

/-- The stable sort of the rankings array under `rankCmp`. -/
def sortRankings (l : List RankingUser) : List RankingUser :=
  l.foldl (fun acc x => insertRanked x acc) []

/-- The ranking `GET` response: the sorted rankings truncated to 50 entries,
with the untruncated participant count. -/
structure RankingResponse where
  rankings : List RankingUser
  totalUsers : ℕ
deriving DecidableEq, Repr

/-- The leaderboard aggregation of the ranking `GET`, on the results of its
confirmed-predictions query (`preds`) and its today-prediction query
(`latest`, as user ids). -/
def rankingGET (preds : List RankRow) (latest : List ℕ) : RankingResponse :=
  let sorted := sortRankings (buildRankings preds latest)
  { rankings := sorted.take 50, totalUsers := sorted.length }

/-! ### Theorems -/

/-- Day-level characterisation of `isMarketClosed`. -/
theorem isMarketClosed_iff (today : ℤ) (hour : ℕ) (a : StockSymbol) (d : ℤ) :
    isMarketClosed today hour a d = true ↔
      d < today ∨ (d = today ∧ MARKET_CLOSE_HOURS_UTC a ≤ hour) := by
  unfold isMarketClosed
  generalize MARKET_CLOSE_HOURS_UTC a = m
  split_ifs with h1 h2
  · simp only [true_iff]
    omega
  · simp only [false_iff]
    omega
  · simp only [decide_eq_true_eq]
    omega

/-- C4: `canAutoConfirm` is false on a confirmed record or an empty predicted
set, and otherwise true exactly when every predicted instrument's market is
closed: unconditionally for a past date, never for a future date, and on the
prediction day itself exactly when the current UTC hour has reached that
instrument's close hour (nikkei 6, sp500 21, gold 22, bitcoin 21). -/
theorem canAutoConfirm_spec (today : ℤ) (hour : ℕ) (d : ℤ) (c : Option ℤ)
    (assets : List StockSymbol) :
    (canAutoConfirm today hour d c assets = true ↔
      c = none ∧ assets ≠ [] ∧ ∀ a ∈ assets,
        d < today ∨ (d = today ∧ MARKET_CLOSE_HOURS_UTC a ≤ hour)) ∧
    MARKET_CLOSE_HOURS_UTC StockSymbol.nikkei = 6 ∧
    MARKET_CLOSE_HOURS_UTC StockSymbol.sp500 = 21 ∧
    MARKET_CLOSE_HOURS_UTC StockSymbol.gold = 22 ∧
    MARKET_CLOSE_HOURS_UTC StockSymbol.bitcoin = 21 := by
  refine ⟨?_, rfl, rfl, rfl, rfl⟩
  unfold canAutoConfirm areAllPredictedMarketsClosed
  split_ifs with h1 h2
  · simp only [false_iff]
    intro h
    exact h1 (by simp [h.1])
  · simp only [false_iff]
    intro h
    exact h.2.1 (List.length_eq_zero.mp h2)
  · rw [List.all_eq_true]
    constructor
    · intro h
      refine ⟨by simpa using h1, fun hnil => h2 (by simp [hnil]), fun a ha => ?_⟩
      exact (isMarketClosed_iff today hour a d).mp (h a ha)
    · intro h a ha
      exact (isMarketClosed_iff today hour a d).mpr (h.2.2 a ha)

/-- C5: `isDirectionCorrect` holds exactly for: both zero, both strictly
positive, both strictly negative, or a zero prediction with `|actual| ≤ 0.1`;
the tolerance is asymmetric, and the four concrete cases of the
specification evaluate as stated. -/
theorem isDirectionCorrect_spec (predicted actual : ℚ) :
    (isDirectionCorrect predicted actual = true ↔
      (predicted = 0 ∧ actual = 0) ∨ (0 < predicted ∧ 0 < actual) ∨
      (predicted < 0 ∧ actual < 0) ∨ (predicted = 0 ∧ |actual| ≤ 1/10)) ∧
    isDirectionCorrect 0 (1/20) = true ∧
    isDirectionCorrect 0 (1/5) = false ∧
    isDirectionCorrect (1/10) (-(1/10)) = false ∧
    isDirectionCorrect (-1) (-(1/100)) = true := by
  refine ⟨?_, ?_, ?_, ?_, ?_⟩
  · constructor
    · intro h
      unfold isDirectionCorrect at h
      split_ifs at h with h1 h2 h3 h4
      · exact Or.inl h1
      · exact Or.inr (Or.inl h2)
      · exact Or.inr (Or.inr (Or.inl h3))
      · exact Or.inr (Or.inr (Or.inr h4))
    · intro h
      unfold isDirectionCorrect
      split_ifs with h1 h2 h3 h4
      any_goals rfl
      rcases h with h | h | h | h
      · exact absurd h h1
      · exact absurd h h2
      · exact absurd h h3
      · exact absurd h h4
  · unfold isDirectionCorrect
    norm_num [abs_le]
  · unfold isDirectionCorrect
    norm_num [lt_abs]
  · unfold isDirectionCorrect
    norm_num
  · unfold isDirectionCorrect
    norm_num

/-- Every instrument key is in the iteration list. -/
theorem mem_ASSET_KEYS (k : StockSymbol) : k ∈ ASSET_KEYS := by
  cases k <;> simp [ASSET_KEYS]

/-- Column access after `mapAssets`. -/
theorem PredictionRow.asset_mapAssets (r : PredictionRow)
    (f : StockSymbol → AssetCols → AssetCols) (k : StockSymbol) :
    (r.mapAssets f).asset k = f k (r.asset k) := by
  cases k <;> rfl

/-- Column access is untouched by a `confirmed_at` write. -/
theorem PredictionRow.asset_setConfirmedAt (r : PredictionRow) (c : Option ℤ)
    (k : StockSymbol) :
    PredictionRow.asset { r with confirmedAt := c } k = r.asset k := by
  cases k <;> rfl

/-- The row used for the C3 evaluation: nikkei was predicted at +2%, not yet
actualised. -/
def editRowC3 : PredictionRow :=
  { userId := 1
    date := 0
    nikkei := { previousClose := some 100, predictedChange := some 2,
                actualChange := none, deviation := none }
    sp500 := AssetCols.empty
    gold := AssetCols.empty
    bitcoin := AssetCols.empty
    reviewComment := none
    createdAt := 0
    confirmedAt := none }

/-- The C3 edit: only `actualChange = 1` supplied for nikkei. -/
def editUpdC3 : StockSymbol → AssetEdit := fun k =>
  if k = StockSymbol.nikkei then
    { predictedChange := none, actualChange := some (some 1) }
  else AssetEdit.empty

/-- C3 (failing input): an `editPrediction` that supplies only a non-null
`actualChange` for an instrument whose stored `predictedChange` is 2 writes
the new actual value but sets the stored deviation to `null` instead of
recomputing `abs(2 - 1) = 1`: the source computes the deviation from
`dbUpdates[key_predicted_change]`, which is only defined when the same call
also supplies `predictedChange`. -/
theorem editPrediction_only_actual_nulls_deviation :
    ((editPrediction editRowC3 editUpdC3 5).asset StockSymbol.nikkei).actualChange
        = some 1 ∧
    ((editPrediction editRowC3 editUpdC3 5).asset StockSymbol.nikkei).deviation
        = none ∧
    calculateDeviation 2 1 = 1 := by
  refine ⟨rfl, rfl, ?_⟩
  unfold calculateDeviation
  norm_num

/-- The record used for the C7 evaluation: gold was not predicted. -/
def statsRecC7 : PredictionRecord :=
  { id := 0
    date := 0
    nikkei := some { previousClose := 100, predictedChange := 1,
                     actualChange := none, deviation := none }
    sp500 := none
    gold := none
    bitcoin := none
    reviewComment := none
    createdAt := 0
    confirmedAt := none }

/-- C7 (failing input): `calculateStockStats` dereferences `r[symbol]`
without a null check, so a single record that did not predict the requested
instrument makes it throw (`Except.error`) instead of being filtered out of
`totalPredictions`. -/
theorem calculateStockStats_throws_on_unpredicted :
    calculateStockStats [statsRecC7] StockSymbol.gold = Except.error () := rfl

/-- The pending row used for the C2 evaluation: nikkei and sp500 predicted
yesterday, nothing actualised. -/
def pendRowC2 : PredictionRow :=
  { userId := 1
    date := -1
    nikkei := { previousClose := some 100, predictedChange := some 1,
                actualChange := none, deviation := none }
    sp500 := { previousClose := some 50, predictedChange := some 1,
               actualChange := none, deviation := none }
    gold := AssetCols.empty
    bitcoin := AssetCols.empty
    reviewComment := none
    createdAt := 0
    confirmedAt := none }

/-- The C2 quote outcome: the nikkei quote resolves, the sp500 fetch fails. -/
def quotesC2 : StockSymbol → Option ℚ := fun k =>
  if k = StockSymbol.nikkei then some 2 else none

/-- C2 (failing input): with one needed quote unavailable, the server-side
sweep `autoConfirmAllPending` still writes `confirmed_at` and the one
obtained actual value, leaving the record marked confirmed while its sp500
prediction has no actual change — a partial confirmation instead of leaving
the record untouched for a later sweep. -/
theorem autoConfirmAllPending_partial_confirm :
    ((autoConfirmAllPending 0 0 quotesC2 5 [pendRowC2]).headD pendRowC2).confirmedAt
        = some 5 ∧
    (((autoConfirmAllPending 0 0 quotesC2 5 [pendRowC2]).headD pendRowC2).asset
        StockSymbol.nikkei).actualChange = some 2 ∧
    (((autoConfirmAllPending 0 0 quotesC2 5 [pendRowC2]).headD pendRowC2).asset
        StockSymbol.sp500).actualChange = none := by
  refine ⟨?_, ?_, ?_⟩ <;> rfl

/-- C6: when a row for the same user and day already exists, the insert hits
the `(user_id, date)` unique constraint and `addPrediction` returns that
pre-existing row unchanged — no error surfaced, the table untouched, no
second record created. -/
theorem addPrediction_duplicate_returns_existing (db : List PredictionRow)
    (userId : ℕ) (today : ℤ) (input : StockSymbol → Option (ℚ × ℚ)) (now : ℤ)
    (r : PredictionRow)
    (h : (db.find? fun row => decide (row.userId = userId ∧ row.date = today))
        = some r) :
    addPrediction db userId today input now = (some r, db) := by
  unfold addPrediction
  have hs : ((db.find? fun row =>
      decide (row.userId = userId ∧ row.date = today)).isSome : Prop) := by
    rw [h]
    exact rfl
  obtain ⟨x, hx, hpx⟩ := List.find?_isSome.mp hs
  rw [if_pos, h]
  exact List.any_eq_true.mpr ⟨x, hx, hpx⟩

/-- A stored row for user 7 on day 3, for the C6 witness. -/
def dupRowC6 : PredictionRow :=
  { userId := 7
    date := 3
    nikkei := { previousClose := some 30, predictedChange := some 1,
                actualChange := none, deviation := none }
    sp500 := AssetCols.empty
    gold := AssetCols.empty
    bitcoin := AssetCols.empty
    reviewComment := none
    createdAt := 1
    confirmedAt := none }

/-- Witness for C6 at a one-row table. -/
theorem addPrediction_duplicate_returns_existing_witness :
    addPrediction [dupRowC6] 7 3 (fun _ => none) 9 = (some dupRowC6, [dupRowC6]) :=
  addPrediction_duplicate_returns_existing [dupRowC6] 7 3 (fun _ => none) 9
    dupRowC6 rfl

/-- C8 (counterexample): an `addPrediction` whose input supplies zero
instruments is not rejected — on an empty table it stores and returns a row
with no predicted instrument at all. -/
theorem addPrediction_accepts_empty_input :
    (addPrediction [] 1 0 (fun _ => none) 7).1.isSome = true ∧
    (addPrediction [] 1 0 (fun _ => none) 7).2.length = 1 ∧
    ∀ k ∈ ASSET_KEYS,
      ((newPredictionRow 1 0 (fun _ => none) 7).asset k).predictedChange = none := by
  refine ⟨rfl, rfl, ?_⟩
  intro k _
  cases k <;> rfl

/-- C8 (amended): `addPrediction` itself performs no zero-instrument
validation (the at-least-one-instrument check lives in the input form); a
non-conflicting insert always succeeds, returning and storing
`newPredictionRow`, and every created row begins Pending: `confirmed_at`
null and every instrument's actual change and deviation null. -/
theorem addPrediction_fresh_insert (db : List PredictionRow) (userId : ℕ)
    (today : ℤ) (input : StockSymbol → Option (ℚ × ℚ)) (now : ℤ)
    (h : ∀ r ∈ db, ¬(r.userId = userId ∧ r.date = today)) :
    addPrediction db userId today input now =
      (some (newPredictionRow userId today input now),
        db ++ [newPredictionRow userId today input now]) ∧
    (newPredictionRow userId today input now).confirmedAt = none ∧
    ∀ k, ((newPredictionRow userId today input now).asset k).actualChange = none ∧
      ((newPredictionRow userId today input now).asset k).deviation = none := by
  refine ⟨?_, rfl, ?_⟩
  · unfold addPrediction
    rw [if_neg]
    intro hany
    obtain ⟨r, hr, hpr⟩ := List.any_eq_true.mp hany
    exact h r hr (of_decide_eq_true hpr)
  · intro k
    have hcols : ∀ o : Option (ℚ × ℚ),
        (newAssetCols o).actualChange = none ∧ (newAssetCols o).deviation = none := by
      intro o
      cases o with
      | none => exact ⟨rfl, rfl⟩
      | some v => cases v; exact ⟨rfl, rfl⟩
    cases k <;> exact hcols _

/-- The table and input for the C8 amended-claim witness. -/
def freshInputC8 : StockSymbol → Option (ℚ × ℚ) := fun k =>
  if k = StockSymbol.sp500 then some (40, 1) else none

/-- Witness for the C8 amended claim on an empty table. -/
theorem addPrediction_fresh_insert_witness :
    addPrediction [] 2 4 freshInputC8 9 =
      (some (newPredictionRow 2 4 freshInputC8 9),
        [] ++ [newPredictionRow 2 4 freshInputC8 9]) ∧
    ((newPredictionRow 2 4 freshInputC8 9).asset StockSymbol.sp500).actualChange
        = none :=
  ⟨(addPrediction_fresh_insert [] 2 4 freshInputC8 9 (by simp)).1,
    ((addPrediction_fresh_insert [] 2 4 freshInputC8 9 (by simp)).2.2
      StockSymbol.sp500).1⟩

/-- C10: `updatePredictionResult` only writes, per instrument present in its
argument, that instrument's actual change and deviation, plus possibly
`confirmed_at`: the date, creation time, review comment, owner, every
previous close and predicted change, and the columns of absent instruments
are unchanged, and `confirmed_at` is either left exactly as it was or set to
the current timestamp — never cleared. -/
theorem updatePredictionResult_frame (r : PredictionRow)
    (results : StockSymbol → Option ℚ) (now : ℤ) :
    (updatePredictionResult r results now).date = r.date ∧
    (updatePredictionResult r results now).createdAt = r.createdAt ∧
    (updatePredictionResult r results now).reviewComment = r.reviewComment ∧
    (updatePredictionResult r results now).userId = r.userId ∧
    (∀ k, ((updatePredictionResult r results now).asset k).previousClose
        = (r.asset k).previousClose ∧
      ((updatePredictionResult r results now).asset k).predictedChange
        = (r.asset k).predictedChange) ∧
    (∀ k, results k = none →
      (updatePredictionResult r results now).asset k = r.asset k) ∧
    ((updatePredictionResult r results now).confirmedAt = r.confirmedAt ∨
      (updatePredictionResult r results now).confirmedAt = some now) := by
  refine ⟨rfl, rfl, rfl, rfl, ?_, ?_, ?_⟩
  · intro k
    unfold updatePredictionResult
    rw [PredictionRow.asset_setConfirmedAt, PredictionRow.asset_mapAssets]
    unfold updApply
    cases results k <;> exact ⟨rfl, rfl⟩
  · intro k hk
    unfold updatePredictionResult
    rw [PredictionRow.asset_setConfirmedAt, PredictionRow.asset_mapAssets]
    unfold updApply
    rw [hk]
  · unfold updatePredictionResult
    by_cases hall : updAllConfirmed r results = true
    · exact Or.inr (by simp [hall])
    · exact Or.inl (by simp [hall])

/-- The row and argument for the C10 witness. -/
def frameRowC10 : PredictionRow :=
  { userId := 4
    date := 6
    nikkei := { previousClose := some 100, predictedChange := some 1,
                actualChange := none, deviation := none }
    sp500 := { previousClose := some 60, predictedChange := some 3,
               actualChange := none, deviation := none }
    gold := AssetCols.empty
    bitcoin := AssetCols.empty
    reviewComment := none
    createdAt := 2
    confirmedAt := none }

/-- The C10 witness argument: only a nikkei actual value supplied. -/
def frameResC10 : StockSymbol → Option ℚ := fun k =>
  if k = StockSymbol.nikkei then some 2 else none

/-- Witness for C10: date unchanged and an absent instrument untouched. -/
theorem updatePredictionResult_frame_witness :
    (updatePredictionResult frameRowC10 frameResC10 5).date = frameRowC10.date ∧
    (updatePredictionResult frameRowC10 frameResC10 5).asset StockSymbol.sp500
      = frameRowC10.asset StockSymbol.sp500 :=
  ⟨(updatePredictionResult_frame frameRowC10 frameResC10 5).1,
    (updatePredictionResult_frame frameRowC10 frameResC10 5).2.2.2.2.2.1
      StockSymbol.sp500 rfl⟩

/-- Pointwise reading of `updAllConfirmed`. -/
theorem updAllConfirmed_iff (r : PredictionRow) (results : StockSymbol → Option ℚ) :
    updAllConfirmed r results = true ↔
      ∀ k ∈ ASSET_KEYS, (r.asset k).predictedChange = none ∨
        (match results k with
          | some a => some a
          | none => (r.asset k).actualChange) ≠ none := by
  unfold updAllConfirmed
  simp only [List.all_eq_true, Bool.or_eq_true, decide_eq_true_eq,
    Option.isSome_iff_ne_none]

/-- Pointwise reading of `editAllConfirmed`. -/
theorem editAllConfirmed_iff (r : PredictionRow) (upd : StockSymbol → AssetEdit) :
    editAllConfirmed r upd = true ↔
      ∀ k ∈ ASSET_KEYS, (r.asset k).predictedChange = none ∨
        (match (upd k).actualChange with
          | some av => av
          | none => (r.asset k).actualChange) ≠ none := by
  unfold editAllConfirmed
  simp only [List.all_eq_true, Bool.or_eq_true, decide_eq_true_eq,
    Option.isSome_iff_ne_none]

/-- Column access after `updatePredictionResult`. -/
theorem updatePredictionResult_asset (r : PredictionRow)
    (results : StockSymbol → Option ℚ) (now : ℤ) (k : StockSymbol) :
    (updatePredictionResult r results now).asset k = updApply results k (r.asset k) := by
  unfold updatePredictionResult
  rw [PredictionRow.asset_setConfirmedAt, PredictionRow.asset_mapAssets]

/-- `updApply` never touches the predicted change. -/
theorem updApply_predictedChange (results : StockSymbol → Option ℚ)
    (k : StockSymbol) (c : AssetCols) :
    (updApply results k c).predictedChange = c.predictedChange := by
  unfold updApply
  cases results k <;> rfl

/-- The actual change after `updApply` is the supplied value or the stored one. -/
theorem updApply_actualChange (results : StockSymbol → Option ℚ)
    (k : StockSymbol) (c : AssetCols) :
    (updApply results k c).actualChange =
      (match results k with
        | some a => some a
        | none => c.actualChange) := by
  unfold updApply
  cases results k <;> rfl

/-- Column access after `editPrediction`. -/
theorem editPrediction_asset (r : PredictionRow) (upd : StockSymbol → AssetEdit)
    (now : ℤ) (k : StockSymbol) :
    (editPrediction r upd now).asset k = editApply upd k (r.asset k) := by
  unfold editPrediction
  rw [PredictionRow.asset_setConfirmedAt, PredictionRow.asset_mapAssets]

/-- The predicted change after `editApply` is the supplied value or the
stored one. -/
theorem editApply_predictedChange (upd : StockSymbol → AssetEdit)
    (k : StockSymbol) (c : AssetCols) :
    (editApply upd k c).predictedChange =
      (match (upd k).predictedChange with
        | some v => some v
        | none => c.predictedChange) := by
  unfold editApply
  cases (upd k).actualChange <;> cases (upd k).predictedChange <;> rfl

/-- The actual change after `editApply` is the supplied value (possibly an
explicit null) or the stored one. -/
theorem editApply_actualChange (upd : StockSymbol → AssetEdit)
    (k : StockSymbol) (c : AssetCols) :
    (editApply upd k c).actualChange =
      (match (upd k).actualChange with
        | some av => av
        | none => c.actualChange) := by
  unfold editApply
  cases (upd k).actualChange <;> cases (upd k).predictedChange <;> rfl

/-- C1 (amended): `updatePredictionResult` preserves the confirmation
invariant, and `editPrediction` re-establishes it from scratch provided the
edit supplies `predictedChange` only for instruments that were already
predicted; an edit that nulls a predicted instrument's actual change always
clears `confirmed_at`.  (The unamended claim fails when an edit introduces a
prediction for a previously-unpredicted instrument, see the counterexample.) -/
theorem confirmation_iff_maintained (r : PredictionRow)
    (results : StockSymbol → Option ℚ) (upd : StockSymbol → AssetEdit)
    (now : ℤ) :
    (confirmedInvariant r →
      confirmedInvariant (updatePredictionResult r results now)) ∧
    ((∀ k ∈ ASSET_KEYS, (upd k).predictedChange ≠ none →
        (r.asset k).predictedChange ≠ none) →
      confirmedInvariant (editPrediction r upd now)) ∧
    (∀ k ∈ ASSET_KEYS, (upd k).actualChange = some none →
      (r.asset k).predictedChange ≠ none →
      (editPrediction r upd now).confirmedAt = none) := by
  have hconfU : (updatePredictionResult r results now).confirmedAt =
      if updAllConfirmed r results = true then some now else r.confirmedAt := rfl
  have hconfE : (editPrediction r upd now).confirmedAt =
      if editAllConfirmed r upd = true then some now else none := rfl
  refine ⟨?_, ?_, ?_⟩
  · intro hinv
    unfold confirmedInvariant at hinv ⊢
    by_cases hall : updAllConfirmed r results = true
    · rw [hconfU, if_pos hall]
      constructor
      · intro _ k hk
        rcases (updAllConfirmed_iff r results).mp hall k hk with h | h
        · left
          rw [updatePredictionResult_asset, updApply_predictedChange]
          exact h
        · right
          rw [updatePredictionResult_asset, updApply_actualChange]
          exact h
      · intro _
        simp
    · rw [hconfU, if_neg hall]
      have hex : ¬ ∀ k ∈ ASSET_KEYS, (r.asset k).predictedChange = none ∨
          (match results k with
            | some a => some a
            | none => (r.asset k).actualChange) ≠ none :=
        fun hc => hall ((updAllConfirmed_iff r results).mpr hc)
      push_neg at hex
      obtain ⟨k, hk, hA, hB⟩ := hex
      constructor
      · intro hcn
        exfalso
        rcases hinv.mp hcn k hk with h | h
        · exact hA h
        · cases hres : results k with
          | some a =>
            rw [hres] at hB
            exact Option.some_ne_none a hB
          | none =>
            rw [hres] at hB
            exact h hB
      · intro hpost
        exfalso
        rcases hpost k hk with h | h
        · rw [updatePredictionResult_asset, updApply_predictedChange] at h
          exact hA h
        · rw [updatePredictionResult_asset, updApply_actualChange] at h
          exact h hB
  · intro hpre
    unfold confirmedInvariant
    by_cases hall : editAllConfirmed r upd = true
    · rw [hconfE, if_pos hall]
      constructor
      · intro _ k hk
        rcases (editAllConfirmed_iff r upd).mp hall k hk with h | h
        · left
          rw [editPrediction_asset, editApply_predictedChange]
          cases hp : (upd k).predictedChange with
          | some v =>
            exact absurd h (hpre k hk (by rw [hp]; exact Option.some_ne_none v))
          | none =>
            exact h
        · right
          rw [editPrediction_asset, editApply_actualChange]
          exact h
      · intro _
        simp
    · rw [hconfE, if_neg hall]
      have hex : ¬ ∀ k ∈ ASSET_KEYS, (r.asset k).predictedChange = none ∨
          (match (upd k).actualChange with
            | some av => av
            | none => (r.asset k).actualChange) ≠ none :=
        fun hc => hall ((editAllConfirmed_iff r upd).mpr hc)
      push_neg at hex
      obtain ⟨k, hk, hA, hB⟩ := hex
      constructor
      · intro hcn
        exact absurd rfl hcn
      · intro hpost
        exfalso
        rcases hpost k hk with h | h
        · rw [editPrediction_asset, editApply_predictedChange] at h
          cases hp : (upd k).predictedChange with
          | some v =>
            rw [hp] at h
            exact Option.some_ne_none v h
          | none =>
            rw [hp] at h
            exact hA h
        · rw [editPrediction_asset, editApply_actualChange] at h
          exact h hB
  · intro k hk hac hpred
    have hfalse : ¬ editAllConfirmed r upd = true := by
      intro hall
      rcases (editAllConfirmed_iff r upd).mp hall k hk with h | h
      · exact hpred h
      · rw [hac] at h
        exact h rfl
    rw [hconfE, if_neg hfalse]

/-- A legally confirmed row for the C1 counterexample: only sp500 predicted,
its actual recorded, `confirmed_at` set. -/
def invRowC1 : PredictionRow :=
  { userId := 1
    date := 0
    nikkei := AssetCols.empty
    sp500 := { previousClose := some 50, predictedChange := some 1,
               actualChange := some 2, deviation := some 1 }
    gold := AssetCols.empty
    bitcoin := AssetCols.empty
    reviewComment := none
    createdAt := 0
    confirmedAt := some 10 }

/-- The C1 counterexample edit: supply a predicted change for nikkei, which
the row had not predicted. -/
def invUpdC1 : StockSymbol → AssetEdit := fun k =>
  if k = StockSymbol.nikkei then
    { predictedChange := some 5, actualChange := none }
  else AssetEdit.empty

/-- C1 (counterexample): the confirmation invariant holds before the edit,
but editing a prediction onto a previously-unpredicted instrument of a
confirmed record leaves `confirmed_at` set while that instrument has no
actual change — the source's `allConfirmed` skips the instrument because its
**pre-edit** predicted change was null. -/
theorem confirmation_iff_broken_by_edit :
    confirmedInvariant invRowC1 ∧
    ¬ confirmedInvariant (editPrediction invRowC1 invUpdC1 20) := by
  constructor
  · decide
  · decide

/-- Concrete inputs for the C1 witness. -/
def rowC1W : PredictionRow :=
  { userId := 3
    date := 2
    nikkei := { previousClose := some 10, predictedChange := some 1,
                actualChange := none, deviation := none }
    sp500 := AssetCols.empty
    gold := AssetCols.empty
    bitcoin := AssetCols.empty
    reviewComment := none
    createdAt := 0
    confirmedAt := none }

/-- The C1 witness confirm argument: a nikkei actual value. -/
def resC1W : StockSymbol → Option ℚ := fun k =>
  if k = StockSymbol.nikkei then some 2 else none

/-- The C1 witness edit argument: an empty edit. -/
def updC1W : StockSymbol → AssetEdit := fun _ => AssetEdit.empty

/-- The C1 witness un-confirm edit: null nikkei's actual change. -/
def updC1W2 : StockSymbol → AssetEdit := fun k =>
  if k = StockSymbol.nikkei then
    { predictedChange := none, actualChange := some none }
  else AssetEdit.empty

/-- Witness for the C1 amended claim at concrete inputs. -/
theorem confirmation_iff_maintained_witness :
    confirmedInvariant (updatePredictionResult rowC1W resC1W 5) ∧
    confirmedInvariant (editPrediction rowC1W updC1W 5) ∧
    (editPrediction rowC1W updC1W2 5).confirmedAt = none :=
  ⟨(confirmation_iff_maintained rowC1W resC1W updC1W 5).1 (by decide),
    (confirmation_iff_maintained rowC1W resC1W updC1W 5).2.1 (by decide),
    (confirmation_iff_maintained rowC1W resC1W updC1W2 5).2.2
      StockSymbol.nikkei (by decide) rfl (by decide)⟩

/-- Totality of the comparator order. -/
theorem rankCmp_total {x y : RankingUser} (h : ¬ rankCmp y x ≤ 0) :
    rankCmp x y ≤ 0 := by
  unfold rankCmp at h ⊢
  split_ifs at h ⊢ <;> first | omega | linarith | simp_all

/-- Transitivity of the comparator order. -/
theorem rankCmp_trans {a b c : RankingUser} (h1 : rankCmp a b ≤ 0)
    (h2 : rankCmp b c ≤ 0) : rankCmp a c ≤ 0 := by
  unfold rankCmp at h1 h2 ⊢
  split_ifs at h1 h2 ⊢ <;> first | omega | linarith | simp_all

/-- Anything ranks at or before a sentinel entry. -/
theorem rankCmp_le_sentinel (y x : RankingUser)
    (hx : x.averageDeviation = -1) : rankCmp y x ≤ 0 := by
  unfold rankCmp
  split_ifs <;> first | omega | linarith | simp_all

/-- Members of an insertion. -/
theorem mem_insertRanked {x z : RankingUser} :
    ∀ {l : List RankingUser}, z ∈ insertRanked x l → z = x ∨ z ∈ l
  | [], h => by
    simpa [insertRanked] using h
  | y :: ys, h => by
    rw [insertRanked] at h
    split at h
    · rcases List.mem_cons.mp h with h | h
      · exact Or.inr (List.mem_cons.mpr (Or.inl h))
      · rcases mem_insertRanked h with h | h
        · exact Or.inl h
        · exact Or.inr (List.mem_cons.mpr (Or.inr h))
    · rcases List.mem_cons.mp h with h | h
      · exact Or.inl h
      · exact Or.inr h

/-- Insertion keeps the list pairwise-ordered under the comparator. -/
theorem pairwise_insertRanked {x : RankingUser} :
    ∀ {l : List RankingUser},
      l.Pairwise (fun a b => rankCmp a b ≤ 0) →
      (insertRanked x l).Pairwise (fun a b => rankCmp a b ≤ 0)
  | [], _ => by
    simp [insertRanked]
  | y :: ys, h => by
    rcases List.pairwise_cons.mp h with ⟨hy, hys⟩
    rw [insertRanked]
    split
    · rename_i hyx
      refine List.pairwise_cons.mpr ⟨?_, pairwise_insertRanked hys⟩
      intro z hz
      rcases mem_insertRanked hz with rfl | hz'
      · exact hyx
      · exact hy z hz'
    · rename_i hyx
      have hxy : rankCmp x y ≤ 0 := rankCmp_total hyx
      refine List.pairwise_cons.mpr ⟨?_, h⟩
      intro z hz
      rcases List.mem_cons.mp hz with rfl | hz'
      · exact hxy
      · exact rankCmp_trans hxy (hy z hz')

/-- Insertion grows the length by one. -/
theorem length_insertRanked (x : RankingUser) :
    ∀ l : List RankingUser, (insertRanked x l).length = l.length + 1
  | [] => rfl
  | y :: ys => by
    rw [insertRanked]
    split
    · simp [length_insertRanked x ys]
    · simp

/-- A sentinel entry is always appended at the very end. -/
theorem insertRanked_sentinel (x : RankingUser)
    (hx : x.averageDeviation = -1) :
    ∀ l : List RankingUser, insertRanked x l = l ++ [x]
  | [] => rfl
  | y :: ys => by
    rw [insertRanked, if_pos (rankCmp_le_sentinel y x hx),
      insertRanked_sentinel x hx ys]
    rfl

/-- Inserting a non-sentinel entry does not change the sentinel sublist. -/
theorem filter_insertRanked (x : RankingUser)
    (hx : ¬ x.averageDeviation = -1) :
    ∀ l : List RankingUser,
      (insertRanked x l).filter (fun u => decide (u.averageDeviation = -1)) =
        l.filter (fun u => decide (u.averageDeviation = -1))
  | [] => by
    simp [insertRanked, hx]
  | y :: ys => by
    rw [insertRanked]
    split
    · rw [List.filter_cons, List.filter_cons, filter_insertRanked x hx ys]
    · rw [List.filter_cons]
      simp [hx]

/-- Pairwise order of the accumulated fold. -/
theorem sortRankings_fold_pairwise :
    ∀ (l acc : List RankingUser),
      acc.Pairwise (fun a b => rankCmp a b ≤ 0) →
      (l.foldl (fun acc x => insertRanked x acc) acc).Pairwise
        (fun a b => rankCmp a b ≤ 0)
  | [], _, h => h
  | x :: xs, acc, h =>
    sortRankings_fold_pairwise xs (insertRanked x acc) (pairwise_insertRanked h)

/-- The sorted rankings list is pairwise-ordered under the comparator. -/
theorem sortRankings_pairwise (l : List RankingUser) :
    (sortRankings l).Pairwise (fun a b => rankCmp a b ≤ 0) :=
  sortRankings_fold_pairwise l [] (List.Pairwise.nil)

/-- Length of the accumulated fold. -/
theorem sortRankings_fold_length :
    ∀ (l acc : List RankingUser),
      (l.foldl (fun acc x => insertRanked x acc) acc).length =
        acc.length + l.length
  | [], acc => by simp
  | x :: xs, acc => by
    rw [List.foldl_cons, sortRankings_fold_length xs (insertRanked x acc),
      length_insertRanked]
    simp
    omega

/-- Sorting preserves the length. -/
theorem sortRankings_length (l : List RankingUser) :
    (sortRankings l).length = l.length := by
  unfold sortRankings
  rw [sortRankings_fold_length]
  simp

/-- The sentinel sublist of the accumulated fold. -/
theorem sortRankings_fold_filter :
    ∀ (l acc : List RankingUser),
      (l.foldl (fun acc x => insertRanked x acc) acc).filter
          (fun u => decide (u.averageDeviation = -1)) =
        acc.filter (fun u => decide (u.averageDeviation = -1)) ++
          l.filter (fun u => decide (u.averageDeviation = -1))
  | [], acc => by simp
  | x :: xs, acc => by
    rw [List.foldl_cons, sortRankings_fold_filter xs (insertRanked x acc)]
    by_cases hx : x.averageDeviation = -1
    · rw [insertRanked_sentinel x hx acc, List.filter_append, List.filter_cons]
      simp [hx]
    · rw [filter_insertRanked x hx acc, List.filter_cons]
      simp [hx]

/-- Sorting keeps the sentinel entries in their original relative order. -/
theorem sortRankings_filter_sentinel (l : List RankingUser) :
    (sortRankings l).filter (fun u => decide (u.averageDeviation = -1)) =
      l.filter (fun u => decide (u.averageDeviation = -1)) := by
  unfold sortRankings
  rw [sortRankings_fold_filter]
  simp

/-- The comparator order implies the claim-level order: each later entry is
a sentinel, or both entries are ranked and the earlier one has the smaller
average deviation. -/
theorem rankCmp_le_imp (a b : RankingUser) (h : rankCmp a b ≤ 0) :
    b.averageDeviation = -1 ∨
      (a.averageDeviation ≠ -1 ∧ a.averageDeviation ≤ b.averageDeviation) := by
  unfold rankCmp at h
  split_ifs at h with h1 h2 h3 h4 h5
  · exact Or.inl h1.2
  · omega
  · exact Or.inl h3
  · exact Or.inr ⟨h2, le_of_lt h4⟩
  · omega
  · exact Or.inr ⟨h2, le_of_not_lt h5⟩

/-- C9: the leaderboard response is the stable sort of the rankings array
truncated to 50 entries; the reported participant total is the untruncated
length; the sorted list is ordered ascending by `averageDeviation` with every
`-1`-sentinel entry after every ranked entry; sorting keeps the sentinel
entries (the users with a same-day prediction and no confirmed stats, in map
order) in their relative order; and every appended entry carries the `-1`
sentinel. -/
theorem rankingGET_spec (preds : List RankRow) (latest : List ℕ) :
    (rankingGET preds latest).rankings =
      (sortRankings (buildRankings preds latest)).take 50 ∧
    (rankingGET preds latest).rankings.length ≤ 50 ∧
    (rankingGET preds latest).totalUsers =
      (sortRankings (buildRankings preds latest)).length ∧
    (sortRankings (buildRankings preds latest)).length =
      (buildRankings preds latest).length ∧
    (sortRankings (buildRankings preds latest)).Pairwise
      (fun a b => b.averageDeviation = -1 ∨
        (a.averageDeviation ≠ -1 ∧
          a.averageDeviation ≤ b.averageDeviation)) ∧
    (sortRankings (buildRankings preds latest)).filter
        (fun u => decide (u.averageDeviation = -1)) =
      (buildRankings preds latest).filter
        (fun u => decide (u.averageDeviation = -1)) ∧
    (sentinelUsers preds latest).all
      (fun u => decide (u.averageDeviation = -1)) = true := by
  refine ⟨rfl, ?_, rfl, sortRankings_length _, ?_, sortRankings_filter_sentinel _, ?_⟩
  · show ((sortRankings (buildRankings preds latest)).take 50).length ≤ 50
    rw [List.length_take]
    exact min_le_left _ _
  · exact (sortRankings_pairwise _).imp (fun h => rankCmp_le_imp _ _ h)
  · rw [List.all_eq_true]
    intro u hu
    simp only [sentinelUsers, List.mem_filterMap] at hu
    obtain ⟨uid, _, h⟩ := hu
    split at h
    · cases h
    · cases h
      exact decide_eq_true rfl

/-- A one-row confirmed-predictions query result for the C9 witness. -/
def predsW9 : List RankRow :=
  [{ userId := 1
     deviationOf := fun k => if k = StockSymbol.nikkei then some (1/2) else none
     predictedOf := fun k => if k = StockSymbol.nikkei then some 1 else none
     actualOf := fun k => if k = StockSymbol.nikkei then some (1/2) else none }]

/-- A one-user today-prediction query result for the C9 witness. -/
def latestW9 : List ℕ := [2]

/-- Witness for C9 at concrete query results. -/
theorem rankingGET_spec_witness :
    (rankingGET predsW9 latestW9).totalUsers =
      (sortRankings (buildRankings predsW9 latestW9)).length ∧
    (sortRankings (buildRankings predsW9 latestW9)).filter
        (fun u => decide (u.averageDeviation = -1)) =
      (buildRankings predsW9 latestW9).filter
        (fun u => decide (u.averageDeviation = -1)) :=
  ⟨(rankingGET_spec predsW9 latestW9).2.2.1,
    (rankingGET_spec predsW9 latestW9).2.2.2.2.2.1⟩
